import Mathlib

/-!
# Verification of the serde_rw extension-dispatch layer

Shallow embedding of the `serde_rw` crate: the extension resolver
(`Path::extension` + ASCII lowercasing as done inline in `from_file.rs` and
`to_file.rs`), the read/write format dispatchers (`FromFile::from_file`,
`ToFile::write_to_file`, `ToFile::write_to_file_pretty`), the per-format
file helpers from `src/formats/{json,toml,xml,yaml}.rs`, and the error
taxonomy.

External collaborators are modelled abstractly:
* the four codec libraries (serde_json, toml, quick-xml, serde_yaml) are a
  `Backend` record of `render`/`parse` functions (plus the JSON and XML
  pretty renderers), exactly the surface the crate calls;
* the filesystem is an association list of path ↦ content; `std::fs::write`
  is modelled as always succeeding, and `std::fs::read_to_string` fails
  exactly on a missing path, with the OS's fixed "no such file" error value
  (the Rust io::Error for a failed read does not contain the path);
* Cargo feature flags (`json`/`toml`/`xml`/`yaml`), which decide which
  match arms of the dispatchers are compiled in, are a `Features` record of
  four Booleans.

The crate's error type appears in the sources under two generations of
variant names (`Io`/`Serde` in `error.rs`, `FileError`/`SerdeError` in the
format modules); the embedding uses one inductive with the format modules'
constructor names plus the dispatcher generation's two extension variants,
and `Error.source` follows `error.rs`'s `std::error::Error::source` impl.
-/

namespace SerdeRw

/-! ## Path model: Rust `std::path::Path::file_name` / `extension` -/

/-- Split a character list on a separator character; models `str::split`.
`splitChar sep cs` always returns a non-empty list of groups. -/
def splitChar (sep : Char) : List Char → List (List Char)
  | [] => [[]]
  | c :: cs =>
    let r := splitChar sep cs
    if c = sep then [] :: r
    else
      match r with
      | [] => [[c]]
      | g :: gs => (c :: g) :: gs

/-- Model of `Path::file_name`: the last `/`-separated component of the
path, skipping empty and `.` components, and `none` when the path is empty
or terminates in `..`. -/
def fileName (p : String) : Option (List Char) :=
  let comps := (splitChar '/' p.data).filter fun c => c ≠ [] ∧ c ≠ ['.']
  match comps.getLast? with
  | none => none
  | some last => if last = ['.', '.'] then none else some last

/-- Model of Rust std's `split_file_at_dot` as used by `Path::extension`:
the characters after the last `.` of the file name, `none` when the file
name is `..`, contains no `.`, or starts with its only `.` (hidden file). -/
def splitFileAtDot (f : List Char) : Option (List Char) :=
  if f = ['.', '.'] then none
  else
    match splitChar '.' f with
    | [] => none
    | [_] => none
    | first :: rest =>
      if first = [] ∧ rest.length = 1 then none else rest.getLast?

/-- Model of `Path::extension` on a path given as a string: the extension
segment of the final path component, not yet case-normalized. -/
def pathExtension (p : String) : Option String :=
  (fileName p).bind fun f => (splitFileAtDot f).map fun l => ⟨l⟩

/-- Model of `u8::to_ascii_lowercase` on one character: only `A`-`Z` are
mapped, all other characters are untouched. -/
def asciiLowerChar (c : Char) : Char :=
  if 'A' ≤ c ∧ c ≤ 'Z' then Char.ofNat (c.toNat + 32) else c

/-- Model of `OsStr::to_ascii_lowercase`, applied by `from_file.rs` and
`to_file.rs` to the raw extension before dispatch. -/
def asciiLower (s : String) : String :=
  ⟨s.data.map asciiLowerChar⟩

/-! ## Filesystem model -/

/-- The filesystem: an association list of path ↦ file content, newest
binding first. -/
def FileSystem : Type := List (String × String)

/-- Model of `std::fs::read_to_string`: the newest content stored at the
path, `none` when the path is absent. -/
def FileSystem.readFile : FileSystem → String → Option String
  | [], _ => none
  | (q, c) :: rest, p => if q = p then some c else FileSystem.readFile rest p

/-- Model of `std::fs::write`: replaces any existing content at the path. -/
def FileSystem.writeFile (fs : FileSystem) (p c : String) : FileSystem :=
  (p, c) :: fs

/-- The fixed OS error value a failed `read_to_string` produces for a
missing file (the Rust `io::Error` does not contain the path). -/
def fsReadErr : String := "No such file or directory (os error 2)"

/-! ## Error taxonomy (`src/error.rs` and the format modules) -/

/-- The crate's error enum. `FileError` is the I/O variant (named `Io` in
`error.rs`), `SerdeError` the codec-failure variant (named `Serde` in
`error.rs`), each carrying the underlying cause;
`UnsupportedFileExtension` carries the (normalized) extension string, and
`NoFileExtensionsSpecified` is the missing-extension condition. -/
inductive Error where
  | FileError : String → Error
  | SerdeError : String → Error
  | UnsupportedFileExtension : String → Error
  | NoFileExtensionsSpecified : Error
deriving DecidableEq, Repr

/-- Model of `std::error::Error::source` from `error.rs`: the underlying
cause for the I/O and codec variants, nothing for the extension
variants. -/
def Error.source : Error → Option String
  | .FileError e => some e
  | .SerdeError e => some e
  | .UnsupportedFileExtension _ => none
  | .NoFileExtensionsSpecified => none

/-! ## Abstract format back-ends (external codec libraries) -/

/-- One codec library's string surface as the crate calls it:
`render` models `to_string` (e.g. `serde_json::to_string`), `parse` models
`from_str`. Failures carry the library's error (as its message). -/
structure Backend (α : Type) where
  render : α → Except String String
  parse : String → Except String α

/-- The four back-ends plus the two pretty renderers the crate uses:
`jsonPretty` models `serde_json::to_writer_pretty`, and `xmlPrettyFmt`
models quick-xml's `Reader`/`Writer::new_with_indent` re-indentation loop
in `to_xml_pretty` (input xml text, indent char, indent size). -/
structure Backends (α : Type) where
  json : Backend α
  jsonPretty : α → Except String String
  toml : Backend α
  xml : Backend α
  xmlPrettyFmt : String → Char → Nat → Except String String
  yaml : Backend α

/-- Cargo feature flags: which of the four format back-ends are compiled
into the dispatch tables. -/
structure Features where
  json : Bool
  toml : Bool
  xml : Bool
  yaml : Bool
deriving DecidableEq, Repr

/-! ## Format modules (`src/formats/*.rs`) -/

variable {α : Type}

/-- `FromJson::from_json_string`: parse, wrapping the codec error. -/
def from_json_string (bk : Backends α) (text : String) : Except Error α :=
  match bk.json.parse text with
  | .ok v => .ok v
  | .error e => .error (.SerdeError e)

/-- `FromJson::from_json_file`: read the whole file, then parse; a read
failure is wrapped as the I/O variant. -/
def from_json_file (bk : Backends α) (fs : FileSystem) (filename : String) :
    Except Error α :=
  match fs.readFile filename with
  | none => .error (.FileError fsReadErr)
  | some text => from_json_string bk text

/-- `FromToml::from_toml_string`. -/
def from_toml_string (bk : Backends α) (text : String) : Except Error α :=
  match bk.toml.parse text with
  | .ok v => .ok v
  | .error e => .error (.SerdeError e)

/-- `FromToml::from_toml_file`. -/
def from_toml_file (bk : Backends α) (fs : FileSystem) (filename : String) :
    Except Error α :=
  match fs.readFile filename with
  | none => .error (.FileError fsReadErr)
  | some text => from_toml_string bk text

/-- `FromXml::from_xml_string`. -/
def from_xml_string (bk : Backends α) (text : String) : Except Error α :=
  match bk.xml.parse text with
  | .ok v => .ok v
  | .error e => .error (.SerdeError e)

/-- `FromXml::from_xml_file`. -/
def from_xml_file (bk : Backends α) (fs : FileSystem) (filename : String) :
    Except Error α :=
  match fs.readFile filename with
  | none => .error (.FileError fsReadErr)
  | some text => from_xml_string bk text

/-- `FromYaml::from_yaml_string`. -/
def from_yaml_string (bk : Backends α) (text : String) : Except Error α :=
  match bk.yaml.parse text with
  | .ok v => .ok v
  | .error e => .error (.SerdeError e)

/-- `FromYaml::from_yaml_file`. -/
def from_yaml_file (bk : Backends α) (fs : FileSystem) (filename : String) :
    Except Error α :=
  match fs.readFile filename with
  | none => .error (.FileError fsReadErr)
  | some text => from_yaml_string bk text

/-- `ToJson::to_json`: render, wrapping the codec error. -/
def to_json (bk : Backends α) (o : α) : Except Error String :=
  match bk.json.render o with
  | .ok s => .ok s
  | .error e => .error (.SerdeError e)

/-- `ToJson::to_json_pretty` via the pretty renderer. -/
def to_json_pretty (bk : Backends α) (o : α) : Except Error String :=
  match bk.jsonPretty o with
  | .ok s => .ok s
  | .error e => .error (.SerdeError e)

/-- `ToJson::write_to_json_file`: serialize fully, then write the file;
returns the new filesystem alongside the result. -/
def write_to_json_file (bk : Backends α) (o : α) (filename : String)
    (fs : FileSystem) : Except Error Unit × FileSystem :=
  match to_json bk o with
  | .error e => (.error e, fs)
  | .ok s => (.ok (), fs.writeFile filename s)

/-- `ToJson::write_to_json_file_pretty`. -/
def write_to_json_file_pretty (bk : Backends α) (o : α) (filename : String)
    (fs : FileSystem) : Except Error Unit × FileSystem :=
  match to_json_pretty bk o with
  | .error e => (.error e, fs)
  | .ok s => (.ok (), fs.writeFile filename s)

/-- `ToToml::to_toml`. -/
def to_toml (bk : Backends α) (o : α) : Except Error String :=
  match bk.toml.render o with
  | .ok s => .ok s
  | .error e => .error (.SerdeError e)

/-- `ToToml::write_to_toml_file`. -/
def write_to_toml_file (bk : Backends α) (o : α) (filename : String)
    (fs : FileSystem) : Except Error Unit × FileSystem :=
  match to_toml bk o with
  | .error e => (.error e, fs)
  | .ok s => (.ok (), fs.writeFile filename s)

/-- `ToXml::to_xml`. -/
def to_xml (bk : Backends α) (o : α) : Except Error String :=
  match bk.xml.render o with
  | .ok s => .ok s
  | .error e => .error (.SerdeError e)

/-- `ToXml::to_xml_pretty`: render the default XML first, then run it
through the indenting re-writer with the given indent char and size. -/
def to_xml_pretty (bk : Backends α) (o : α) (indentChar : Char)
    (indentSize : Nat) : Except Error String :=
  match to_xml bk o with
  | .error e => .error e
  | .ok xml =>
    match bk.xmlPrettyFmt xml indentChar indentSize with
    | .ok s => .ok s
    | .error e => .error (.SerdeError e)

/-- `ToXml::write_to_xml_file`. -/
def write_to_xml_file (bk : Backends α) (o : α) (filename : String)
    (fs : FileSystem) : Except Error Unit × FileSystem :=
  match to_xml bk o with
  | .error e => (.error e, fs)
  | .ok s => (.ok (), fs.writeFile filename s)

/-- `ToXml::write_to_xml_file_pretty`. -/
def write_to_xml_file_pretty (bk : Backends α) (o : α) (filename : String)
    (indentChar : Char) (indentSize : Nat) (fs : FileSystem) :
    Except Error Unit × FileSystem :=
  match to_xml_pretty bk o indentChar indentSize with
  | .error e => (.error e, fs)
  | .ok s => (.ok (), fs.writeFile filename s)

/-- `ToYaml::to_yaml`. -/
def to_yaml (bk : Backends α) (o : α) : Except Error String :=
  match bk.yaml.render o with
  | .ok s => .ok s
  | .error e => .error (.SerdeError e)

/-- `ToYaml::write_to_yaml_file`. -/
def write_to_yaml_file (bk : Backends α) (o : α) (filename : String)
    (fs : FileSystem) : Except Error Unit × FileSystem :=
  match to_yaml bk o with
  | .error e => (.error e, fs)
  | .ok s => (.ok (), fs.writeFile filename s)

/-! ## Dispatchers (`src/from_file.rs`, `src/to_file.rs`) -/

/-- The `match extension.as_encoded_bytes()` body of
`FromFile::from_file`, on the already-lowercased extension `e`; a match
arm is present exactly when its feature flag is enabled. -/
def from_file_dispatch (ft : Features) (bk : Backends α) (fs : FileSystem)
    (filename : String) (e : String) : Except Error α :=
  if ft.json = true ∧ e = "json" then from_json_file bk fs filename
  else if ft.toml = true ∧ e = "toml" then from_toml_file bk fs filename
  else if ft.xml = true ∧ e = "xml" then from_xml_file bk fs filename
  else if ft.yaml = true ∧ (e = "yml" ∨ e = "yaml") then
    from_yaml_file bk fs filename
  else .error (.UnsupportedFileExtension e)

/-- `FromFile::from_file`: resolve the extension (failing with the
missing-extension variant when there is none), ASCII-lowercase it, and
dispatch. -/
def from_file (ft : Features) (bk : Backends α) (fs : FileSystem)
    (filename : String) : Except Error α :=
  match pathExtension filename with
  | none => .error .NoFileExtensionsSpecified
  | some ext => from_file_dispatch ft bk fs filename (asciiLower ext)

/-- The `match` body of `ToFile::write_to_file` on the lowercased
extension. -/
def write_to_file_dispatch (ft : Features) (bk : Backends α) (o : α)
    (filename : String) (e : String) (fs : FileSystem) :
    Except Error Unit × FileSystem :=
  if ft.json = true ∧ e = "json" then write_to_json_file bk o filename fs
  else if ft.toml = true ∧ e = "toml" then write_to_toml_file bk o filename fs
  else if ft.xml = true ∧ e = "xml" then write_to_xml_file bk o filename fs
  else if ft.yaml = true ∧ (e = "yml" ∨ e = "yaml") then
    write_to_yaml_file bk o filename fs
  else (.error (.UnsupportedFileExtension e), fs)

/-- `ToFile::write_to_file`. -/
def write_to_file (ft : Features) (bk : Backends α) (o : α)
    (filename : String) (fs : FileSystem) : Except Error Unit × FileSystem :=
  match pathExtension filename with
  | none => (.error .NoFileExtensionsSpecified, fs)
  | some ext => write_to_file_dispatch ft bk o filename (asciiLower ext) fs

/-- `XML_INDENT_CHAR` from `to_file.rs`. -/
def XML_INDENT_CHAR : Char := ' '

/-- `XML_INDENT_LEN` from `to_file.rs`. -/
def XML_INDENT_LEN : Nat := 4

/-- `ToFile::write_to_file_pretty`: only the JSON and XML arms exist (when
their features are enabled); everything else falls back to
`write_to_file`. The XML arm passes the two indent constants. -/
def write_to_file_pretty (ft : Features) (bk : Backends α) (o : α)
    (filename : String) (fs : FileSystem) : Except Error Unit × FileSystem :=
  match pathExtension filename with
  | none => (.error .NoFileExtensionsSpecified, fs)
  | some ext =>
    let e := asciiLower ext
    if ft.json = true ∧ e = "json" then
      write_to_json_file_pretty bk o filename fs
    else if ft.xml = true ∧ e = "xml" then
      write_to_xml_file_pretty bk o filename XML_INDENT_CHAR XML_INDENT_LEN fs
    else write_to_file ft bk o filename fs

/-- The back-end an (already lowercased) extension dispatches to, when its
feature is enabled: a direct reading of the shared dispatch table of
`from_file` and `write_to_file`. -/
def backendFor (ft : Features) (bk : Backends α) (e : String) :
    Option (Backend α) :=
  if ft.json = true ∧ e = "json" then some bk.json
  else if ft.toml = true ∧ e = "toml" then some bk.toml
  else if ft.xml = true ∧ e = "xml" then some bk.xml
  else if ft.yaml = true ∧ (e = "yml" ∨ e = "yaml") then some bk.yaml
  else none

/-- The error the shared dispatch prefix of both dispatchers produces
before any filesystem access: missing extension, or the (normalized)
unsupported extension. -/
def dispatchErr (p : String) : Error :=
  match pathExtension p with
  | none => .NoFileExtensionsSpecified
  | some x => .UnsupportedFileExtension (asciiLower x)

/-! ## Helper lemmas -/

theorem readFile_writeFile (fs : FileSystem) (p c : String) :
    (fs.writeFile p c).readFile p = some c := by
  simp [FileSystem.writeFile, FileSystem.readFile]

theorem from_file_ext {p x : String} (ft : Features) (bk : Backends α)
    (fs : FileSystem) (h : pathExtension p = some x) :
    from_file ft bk fs p = from_file_dispatch ft bk fs p (asciiLower x) := by
  unfold from_file
  rw [h]

theorem from_file_noext {p : String} (ft : Features) (bk : Backends α)
    (fs : FileSystem) (h : pathExtension p = none) :
    from_file ft bk fs p = .error .NoFileExtensionsSpecified := by
  unfold from_file
  rw [h]

theorem write_to_file_ext {p x : String} (ft : Features) (bk : Backends α)
    (o : α) (fs : FileSystem) (h : pathExtension p = some x) :
    write_to_file ft bk o p fs =
      write_to_file_dispatch ft bk o p (asciiLower x) fs := by
  unfold write_to_file
  rw [h]

theorem write_to_file_noext {p : String} (ft : Features) (bk : Backends α)
    (o : α) (fs : FileSystem) (h : pathExtension p = none) :
    write_to_file ft bk o p fs = (.error .NoFileExtensionsSpecified, fs) := by
  unfold write_to_file
  rw [h]

theorem from_file_dispatch_backend {e : String} {ft : Features}
    {bk : Backends α} {b : Backend α} (fs : FileSystem) (p : String)
    (h : backendFor ft bk e = some b) :
    from_file_dispatch ft bk fs p e =
      match fs.readFile p with
      | none => .error (.FileError fsReadErr)
      | some text =>
        match b.parse text with
        | .ok v => .ok v
        | .error m => .error (.SerdeError m) := by
  unfold backendFor at h
  unfold from_file_dispatch
  split_ifs at h ⊢ <;> (cases h; rfl)

theorem from_file_dispatch_none {e : String} {ft : Features}
    {bk : Backends α} (fs : FileSystem) (p : String)
    (h : backendFor ft bk e = none) :
    from_file_dispatch ft bk fs p e = .error (.UnsupportedFileExtension e) := by
  unfold backendFor at h
  unfold from_file_dispatch
  split_ifs at h ⊢
  rfl

theorem write_to_file_dispatch_backend {e : String} {ft : Features}
    {bk : Backends α} {b : Backend α} (o : α) (p : String) (fs : FileSystem)
    (h : backendFor ft bk e = some b) :
    write_to_file_dispatch ft bk o p e fs =
      match b.render o with
      | .error m => (.error (.SerdeError m), fs)
      | .ok s => (.ok (), fs.writeFile p s) := by
  unfold backendFor at h
  unfold write_to_file_dispatch
  split_ifs at h ⊢
  · cases h
    unfold write_to_json_file to_json
    cases bk.json.render o <;> rfl
  · cases h
    unfold write_to_toml_file to_toml
    cases bk.toml.render o <;> rfl
  · cases h
    unfold write_to_xml_file to_xml
    cases bk.xml.render o <;> rfl
  · cases h
    unfold write_to_yaml_file to_yaml
    cases bk.yaml.render o <;> rfl

theorem write_to_file_dispatch_none {e : String} {ft : Features}
    {bk : Backends α} (o : α) (p : String) (fs : FileSystem)
    (h : backendFor ft bk e = none) :
    write_to_file_dispatch ft bk o p e fs =
      (.error (.UnsupportedFileExtension e), fs) := by
  unfold backendFor at h
  unfold write_to_file_dispatch
  split_ifs at h ⊢
  rfl

theorem backendFor_none_of_unsupported {e : String} (ft : Features)
    (bk : Backends α)
    (h : e ∉ (["json", "toml", "xml", "yml", "yaml"] : List String)) :
    backendFor ft bk e = none := by
  unfold backendFor
  simp only [List.mem_cons, List.not_mem_nil, or_false] at h
  push_neg at h
  obtain ⟨h1, h2, h3, h4, h5⟩ := h
  split_ifs with g1 g2 g3 g4
  · exact absurd g1.2 h1
  · exact absurd g2.2 h2
  · exact absurd g3.2 h3
  · rcases g4.2 with g | g
    · exact absurd g h4
    · exact absurd g h5
  · rfl

/-! ## Concrete fixtures for witnesses -/

/-- All four Cargo features enabled. -/
def ftAll : Features := ⟨true, true, true, true⟩

/-- A concrete codec over strings whose render and parse are the identity:
it round-trips every value. -/
def idBackend : Backend String := ⟨fun o => .ok o, fun s => .ok s⟩

/-- All four back-ends instantiated with the identity codec. -/
def idBackends : Backends String :=
  ⟨idBackend, fun o => .ok o, idBackend, idBackend, fun s _ _ => .ok s,
    idBackend⟩

/-- A concrete codec that always fails, to exercise the error paths. -/
def failBackend : Backend String :=
  ⟨fun _ => .error "serialization failed",
    fun _ => .error "deserialization failed"⟩

/-- All four back-ends instantiated with the failing codec. -/
def failBackends : Backends String :=
  ⟨failBackend, fun _ => .error "serialization failed", failBackend,
    failBackend, fun _ _ _ => .error "format failed", failBackend⟩

/-! ## The claims -/

/-- C1: for every supported extension whose back-end is enabled and every
object the back-end round-trips, writing via `write_to_file` and reading
the same path back via `from_file` returns an equal object. -/
theorem roundtrip_write_then_read (ft : Features) (bk : Backends α)
    (b : Backend α) (o : α) (s p x : String) (fs : FileSystem)
    (hx : pathExtension p = some x)
    (hb : backendFor ft bk (asciiLower x) = some b)
    (hr : b.render o = .ok s) (hp : b.parse s = .ok o) :
    write_to_file ft bk o p fs = (.ok (), fs.writeFile p s) ∧
    from_file ft bk (fs.writeFile p s) p = .ok o := by
  constructor
  · rw [write_to_file_ext ft bk o fs hx,
      write_to_file_dispatch_backend o p fs hb, hr]
  · rw [from_file_ext ft bk _ hx, from_file_dispatch_backend _ p hb,
      readFile_writeFile]
    simp [hp]

/-- Witness for C1 at the identity codec and `person.json`. -/
theorem roundtrip_write_then_read_witness :
    write_to_file ftAll idBackends "hello" "person.json" [] =
      (.ok (), FileSystem.writeFile [] "person.json" "hello") ∧
    from_file ftAll idBackends
      (FileSystem.writeFile [] "person.json" "hello") "person.json" =
      .ok "hello" :=
  roundtrip_write_then_read ftAll idBackends idBackends.json "hello" "hello"
    "person.json" "json" [] (by decide) rfl rfl rfl

/-- C2: extension dispatch is case-insensitive: two paths whose extensions
agree after ASCII lowercasing, holding the same content, read identically;
writes produce the same outcome and the same written content. -/
theorem case_insensitive_dispatch (ft : Features) (bk : Backends α) (o : α)
    (fs : FileSystem) (p₁ p₂ x₁ x₂ : String)
    (h₁ : pathExtension p₁ = some x₁) (h₂ : pathExtension p₂ = some x₂)
    (he : asciiLower x₁ = asciiLower x₂)
    (hfs : fs.readFile p₁ = fs.readFile p₂) :
    from_file ft bk fs p₁ = from_file ft bk fs p₂ ∧
    (write_to_file ft bk o p₁ fs).1 = (write_to_file ft bk o p₂ fs).1 ∧
    (write_to_file ft bk o p₁ fs).2.readFile p₁ =
      (write_to_file ft bk o p₂ fs).2.readFile p₂ := by
  rw [from_file_ext ft bk fs h₁, from_file_ext ft bk fs h₂,
    write_to_file_ext ft bk o fs h₁, write_to_file_ext ft bk o fs h₂, he]
  rcases hB : backendFor ft bk (asciiLower x₂) with _ | b
  · rw [from_file_dispatch_none fs p₁ hB, from_file_dispatch_none fs p₂ hB,
      write_to_file_dispatch_none o p₁ fs hB,
      write_to_file_dispatch_none o p₂ fs hB]
    exact ⟨rfl, rfl, hfs⟩
  · rw [from_file_dispatch_backend fs p₁ hB,
      from_file_dispatch_backend fs p₂ hB,
      write_to_file_dispatch_backend o p₁ fs hB,
      write_to_file_dispatch_backend o p₂ fs hB]
    refine ⟨by rw [hfs], ?_, ?_⟩ <;>
      cases b.render o <;> simp [hfs, readFile_writeFile]

/-- Witness for C2 at `person.JSON` versus `person.json`. -/
theorem case_insensitive_dispatch_witness :
    from_file ftAll idBackends [] "person.JSON" =
      from_file ftAll idBackends [] "person.json" ∧
    (write_to_file ftAll idBackends "v" "person.JSON" []).1 =
      (write_to_file ftAll idBackends "v" "person.json" []).1 ∧
    (write_to_file ftAll idBackends "v" "person.JSON" []).2.readFile
        "person.JSON" =
      (write_to_file ftAll idBackends "v" "person.json" []).2.readFile
        "person.json" :=
  case_insensitive_dispatch ftAll idBackends "v" [] "person.JSON"
    "person.json" "JSON" "json" (by decide) (by decide) (by decide) rfl

/-- C3: a present but unsupported extension makes both `from_file` and
`write_to_file` fail with `UnsupportedFileExtension` carrying the
normalized extension, and the filesystem is untouched. -/
theorem unsupported_extension_error (ft : Features) (bk : Backends α)
    (o : α) (fs : FileSystem) (p x : String)
    (hx : pathExtension p = some x)
    (hns : asciiLower x ∉ (["json", "toml", "xml", "yml", "yaml"] :
      List String)) :
    from_file ft bk fs p =
      .error (.UnsupportedFileExtension (asciiLower x)) ∧
    write_to_file ft bk o p fs =
      (.error (.UnsupportedFileExtension (asciiLower x)), fs) := by
  have hB := backendFor_none_of_unsupported (e := asciiLower x) ft bk hns
  rw [from_file_ext ft bk fs hx, write_to_file_ext ft bk o fs hx,
    from_file_dispatch_none fs p hB, write_to_file_dispatch_none o p fs hB]
  exact ⟨rfl, rfl⟩

/-- Witness for C3 at `person.txt`. -/
theorem unsupported_extension_error_witness :
    from_file ftAll idBackends [] "person.txt" =
      .error (.UnsupportedFileExtension "txt") ∧
    write_to_file ftAll idBackends "v" "person.txt" [] =
      (.error (.UnsupportedFileExtension "txt"), []) :=
  unsupported_extension_error ftAll idBackends "v" [] "person.txt" "txt"
    (by decide) (by decide)

/-- C4: a path with no extension segment makes both operations fail with
the missing-extension variant; and no path ever dispatches successfully on
an empty extension: a path whose resolved extension is the empty string
(such as one ending in a bare dot) fails as unsupported. -/
theorem missing_extension_error (ft : Features) (bk : Backends α) (o : α)
    (fs : FileSystem) (p : String) (hx : pathExtension p = none) :
    from_file ft bk fs p = .error .NoFileExtensionsSpecified ∧
    write_to_file ft bk o p fs = (.error .NoFileExtensionsSpecified, fs) ∧
    ∀ q : String, pathExtension q = some "" →
      from_file ft bk fs q = .error (.UnsupportedFileExtension "") ∧
      write_to_file ft bk o q fs =
        (.error (.UnsupportedFileExtension ""), fs) := by
  refine ⟨from_file_noext ft bk fs hx, write_to_file_noext ft bk o fs hx,
    fun q hq => ?_⟩
  have hB : backendFor ft bk (asciiLower "") = none :=
    backendFor_none_of_unsupported ft bk (by decide)
  rw [from_file_ext ft bk fs hq, write_to_file_ext ft bk o fs hq]
  exact ⟨from_file_dispatch_none fs q hB,
    write_to_file_dispatch_none o q fs hB⟩

/-- Witness for C4 at the extensionless path `file` and the bare-dot path
`file.`. -/
theorem missing_extension_error_witness :
    from_file ftAll idBackends [] "file" =
      .error .NoFileExtensionsSpecified ∧
    write_to_file ftAll idBackends "doc" "file" [] =
      (.error .NoFileExtensionsSpecified, []) ∧
    from_file ftAll idBackends [] "file." =
      .error (.UnsupportedFileExtension "") := by
  have h := missing_extension_error ftAll idBackends "doc" [] "file"
    (by decide)
  exact ⟨h.1, h.2.1, (h.2.2 "file." (by decide)).1⟩

/-- C5: `yml` and `yaml` dispatch to the identical YAML back-end on both
the read and write tables, and writing the same object to a `.yml` path
and a `.yaml` path produces the same outcome and identical file
content. -/
theorem yml_yaml_same_backend (ft : Features) (bk : Backends α) (o : α)
    (fs : FileSystem) (p₁ p₂ x₁ x₂ : String) (hy : ft.yaml = true)
    (h₁ : pathExtension p₁ = some x₁) (hl₁ : asciiLower x₁ = "yml")
    (h₂ : pathExtension p₂ = some x₂) (hl₂ : asciiLower x₂ = "yaml") :
    backendFor ft bk "yml" = some bk.yaml ∧
    backendFor ft bk "yaml" = some bk.yaml ∧
    (write_to_file ft bk o p₁ fs).1 = (write_to_file ft bk o p₂ fs).1 ∧
    ∀ s : String, bk.yaml.render o = .ok s →
      (write_to_file ft bk o p₁ fs).2.readFile p₁ = some s ∧
      (write_to_file ft bk o p₂ fs).2.readFile p₂ = some s := by
  have hB₁ : backendFor ft bk "yml" = some bk.yaml := by
    simp [backendFor, hy]
  have hB₂ : backendFor ft bk "yaml" = some bk.yaml := by
    simp [backendFor, hy]
  have hw₁ := write_to_file_ext ft bk o fs h₁
  have hw₂ := write_to_file_ext ft bk o fs h₂
  refine ⟨hB₁, hB₂, ?_, ?_⟩
  · rw [hw₁, hw₂, hl₁, hl₂, write_to_file_dispatch_backend o p₁ fs hB₁,
      write_to_file_dispatch_backend o p₂ fs hB₂]
    cases bk.yaml.render o <;> rfl
  · intro s hs
    rw [hw₁, hw₂, hl₁, hl₂, write_to_file_dispatch_backend o p₁ fs hB₁,
      write_to_file_dispatch_backend o p₂ fs hB₂, hs]
    simp [readFile_writeFile]

/-- Witness for C5 at `person.yml` versus `person.yaml`. -/
theorem yml_yaml_same_backend_witness :
    backendFor ftAll idBackends "yml" = some idBackends.yaml ∧
    backendFor ftAll idBackends "yaml" = some idBackends.yaml ∧
    (write_to_file ftAll idBackends "v" "person.yml" []).1 =
      (write_to_file ftAll idBackends "v" "person.yaml" []).1 ∧
    (write_to_file ftAll idBackends "v" "person.yml" []).2.readFile
        "person.yml" = some "v" ∧
    (write_to_file ftAll idBackends "v" "person.yaml" []).2.readFile
        "person.yaml" = some "v" := by
  have h := yml_yaml_same_backend ftAll idBackends "v" [] "person.yml"
    "person.yaml" "yml" "yaml" rfl (by decide) (by decide) (by decide)
    (by decide)
  exact ⟨h.1, h.2.1, h.2.2.1, h.2.2.2 "v" rfl⟩

/-- C6: on the read path through an enabled back-end, a failed file read
yields exactly the I/O variant and a failed parse yields exactly the
codec-failure variant, and `Error.source` exposes the underlying cause of
both for programmatic inspection. -/
theorem read_error_taxonomy (ft : Features) (bk : Backends α)
    (b : Backend α) (fs : FileSystem) (p x : String)
    (hx : pathExtension p = some x)
    (hb : backendFor ft bk (asciiLower x) = some b) :
    from_file ft bk fs p =
      (match fs.readFile p with
       | none => .error (.FileError fsReadErr)
       | some text =>
         match b.parse text with
         | .ok v => .ok v
         | .error m => .error (.SerdeError m)) ∧
    Error.source (.FileError fsReadErr) = some fsReadErr ∧
    ∀ m : String, Error.source (.SerdeError m) = some m :=
  ⟨by rw [from_file_ext ft bk fs hx]
      exact from_file_dispatch_backend fs p hb,
    rfl, fun m => rfl⟩

/-- Witness for C6: a missing file yields the I/O variant, malformed
content yields the codec variant; both causes are exposed by
`Error.source`. -/
theorem read_error_taxonomy_witness :
    from_file ftAll failBackends [] "person.json" =
      .error (.FileError fsReadErr) ∧
    from_file ftAll failBackends [("person.json", "not json")]
        "person.json" =
      .error (.SerdeError "deserialization failed") ∧
    Error.source (.FileError fsReadErr) = some fsReadErr ∧
    Error.source (.SerdeError "deserialization failed") =
      some "deserialization failed" := by
  have h₁ := read_error_taxonomy ftAll failBackends failBackends.json []
    "person.json" "json" (by decide) rfl
  have h₂ := read_error_taxonomy ftAll failBackends failBackends.json
    [("person.json", "not json")] "person.json" "json" (by decide) rfl
  exact ⟨h₁.1, h₂.1, h₁.2.1, h₁.2.2 "deserialization failed"⟩

/-- C7: for toml, yml and yaml extensions (no pretty mode),
`write_to_file_pretty` is exactly `write_to_file`: same success, same
failure, same written content; requesting pretty output is never itself a
failure. -/
theorem pretty_fallback_default (ft : Features) (bk : Backends α) (o : α)
    (fs : FileSystem) (p x : String) (hx : pathExtension p = some x)
    (hm : asciiLower x ∈ (["toml", "yml", "yaml"] : List String)) :
    write_to_file_pretty ft bk o p fs = write_to_file ft bk o p fs := by
  unfold write_to_file_pretty
  rw [hx]
  simp only [List.mem_cons, List.not_mem_nil, or_false] at hm
  rcases hm with h | h | h <;> simp [h]

/-- Witness for C7 at `person.toml`. -/
theorem pretty_fallback_default_witness :
    write_to_file_pretty ftAll idBackends "v" "person.toml" [] =
      write_to_file ftAll idBackends "v" "person.toml" [] :=
  pretty_fallback_default ftAll idBackends "v" [] "person.toml" "toml"
    (by decide) (by decide)

/-- C8: on an xml path, `write_to_file_pretty` invokes the XML pretty
writer with the default indent character, a space, and the default indent
width 4. -/
theorem xml_pretty_defaults (ft : Features) (bk : Backends α) (o : α)
    (fs : FileSystem) (p x : String) (hx : pathExtension p = some x)
    (hl : asciiLower x = "xml") (hft : ft.xml = true) :
    write_to_file_pretty ft bk o p fs =
      write_to_xml_file_pretty bk o p ' ' 4 fs ∧
    XML_INDENT_CHAR = ' ' ∧ XML_INDENT_LEN = 4 := by
  refine ⟨?_, rfl, rfl⟩
  unfold write_to_file_pretty
  rw [hx]
  simp [hl, hft, XML_INDENT_CHAR, XML_INDENT_LEN]

/-- Witness for C8 at `person.xml`. -/
theorem xml_pretty_defaults_witness :
    write_to_file_pretty ftAll idBackends "v" "person.xml" [] =
      write_to_xml_file_pretty idBackends "v" "person.xml" ' ' 4 [] ∧
    XML_INDENT_CHAR = ' ' ∧ XML_INDENT_LEN = 4 :=
  xml_pretty_defaults ftAll idBackends "v" [] "person.xml" "xml"
    (by decide) (by decide) rfl

/-- C9: when serializing the object fails, `write_to_file` returns the
serialization error and the filesystem is returned unchanged: nothing was
written, because the full output string is produced before any write. -/
theorem serialize_failure_leaves_fs (ft : Features) (bk : Backends α)
    (b : Backend α) (o : α) (fs : FileSystem) (p x msg : String)
    (hx : pathExtension p = some x)
    (hb : backendFor ft bk (asciiLower x) = some b)
    (hfail : b.render o = .error msg) :
    write_to_file ft bk o p fs = (.error (.SerdeError msg), fs) := by
  rw [write_to_file_ext ft bk o fs hx,
    write_to_file_dispatch_backend o p fs hb, hfail]

/-- Witness for C9 at the always-failing codec and `person.json`, on a
filesystem already holding the target file. -/
theorem serialize_failure_leaves_fs_witness :
    write_to_file ftAll failBackends "v" "person.json"
        [("person.json", "old")] =
      (.error (.SerdeError "serialization failed"),
        [("person.json", "old")]) :=
  serialize_failure_leaves_fs ftAll failBackends failBackends.json "v"
    [("person.json", "old")] "person.json" "json" "serialization failed"
    (by decide) rfl rfl

/-- C10: when the extension is missing or dispatches to no enabled
back-end, both operations return the dispatch error for every filesystem:
the result does not depend on the filesystem and a write leaves it
unchanged, because dispatch happens strictly before any file access. -/
theorem dispatch_error_before_io (ft : Features) (bk : Backends α) (o : α)
    (p : String)
    (h : ∀ x, pathExtension p = some x →
      backendFor ft bk (asciiLower x) = none) :
    (∀ fs : FileSystem, from_file ft bk fs p = .error (dispatchErr p)) ∧
    ∀ fs : FileSystem,
      write_to_file ft bk o p fs = (.error (dispatchErr p), fs) := by
  rcases hx : pathExtension p with _ | x
  · constructor <;> intro fs
    · rw [from_file_noext ft bk fs hx]
      unfold dispatchErr
      rw [hx]
    · rw [write_to_file_noext ft bk o fs hx]
      unfold dispatchErr
      rw [hx]
  · have hB := h x hx
    constructor <;> intro fs
    · rw [from_file_ext ft bk fs hx, from_file_dispatch_none fs p hB]
      unfold dispatchErr
      rw [hx]
    · rw [write_to_file_ext ft bk o fs hx,
        write_to_file_dispatch_none o p fs hB]
      unfold dispatchErr
      rw [hx]

/-- Witness for C10 at `person.txt`: the same error whether or not the
file exists, and the filesystem is unchanged by the write. -/
theorem dispatch_error_before_io_witness :
    from_file ftAll idBackends [] "person.txt" =
      .error (.UnsupportedFileExtension "txt") ∧
    from_file ftAll idBackends [("person.txt", "hi")] "person.txt" =
      .error (.UnsupportedFileExtension "txt") ∧
    write_to_file ftAll idBackends "v" "person.txt" [] =
      (.error (.UnsupportedFileExtension "txt"), []) := by
  have h := dispatch_error_before_io ftAll idBackends "v" "person.txt"
    (fun x hx => by
      have hps : pathExtension "person.txt" = some "txt" := by decide
      rw [hps] at hx
      cases hx
      rfl)
  exact ⟨h.1 [], h.1 [("person.txt", "hi")], h.2 []⟩

end SerdeRw
